import Mathlib

/-!
Shallow embedding of the Mudrex futures volume/fees calculator
(`mudrex_volume_fees/calculator.py` and `mudrex_volume_fees/tiers.py`).

Modelling conventions:
* Python numbers (int/float) are embedded as `ℚ`; the decimal literals of the
  source (fee rates, thresholds) are exact in `ℚ`.  No claim in scope depends
  on binary floating-point rounding.
* A Python value found in a raw record is a `PyVal`; a raw order/fee record
  (a dict) is an association list `Record` with unique keys; `dict.get(k)`
  with default `None` is `pyGet`.
* `datetime` objects are `Dt`: the `civil` field is the wall-clock reading in
  seconds since the epoch of that wall clock, `tz` is the UTC offset in
  seconds (`none` = naive).  The instant of an aware value is
  `civil - offset`.  `astimezone`/`replace(tzinfo=IST)` are `istNormalize`.
* An uncaught Python exception is modelled as `none`/`Option` at the level
  where it escapes (e.g. `.strip()` on a non-string, `AlphaTier(t)` on an
  out-of-range `t`).  Caught exceptions follow the source's `except` arms.
* `datetime.fromtimestamp(q, tz=utc)` succeeds for (roughly) year 1..9999,
  i.e. `-62135596800 ≤ q ≤ 253402300799`, raising `ValueError`/`OSError`
  otherwise (both caught by the source).  In the topmost ≈5.5 hours of that
  range the subsequent `astimezone(IST)` raises an uncaught `OverflowError`;
  that sliver is modelled as unparseable (`none`) and no theorem below goes
  near it, hence the modelled upper bound `253402281000`.
* `float(string)` is modelled for plain decimal literals (optional sign,
  digits, at most one dot).  Strings reaching `float` through the numeric
  gate of `_parse_dt` can only have that shape; exponent/inf/nan forms are
  outside the modelled domain.
* `str.isdigit` is modelled for ASCII digits; `fromisoformat` is modelled for
  `YYYY-MM-DD[THH:MM[:SS][±HH:MM]]` (the forms accepted by every supported
  CPython version); other strings are unparseable both here and there for
  the inputs appearing in the theorems.
-/

namespace Mudrex

/-- Python `str.strip()` on character lists (whitespace at both ends). -/
def stripChars (l : List Char) : List Char :=
  ((l.dropWhile Char.isWhitespace).reverse.dropWhile Char.isWhitespace).reverse

/-- Python `str.strip()`. -/
def pyStrip (s : String) : String := ⟨stripChars s.data⟩

/-- Python `str.upper()` (ASCII). -/
def pyUpper (s : String) : String := ⟨s.data.map Char.toUpper⟩

/-- Python `str.replace(old, new, 1)` for a one-character `old` and empty
`new`: drop the first occurrence. -/
def removeFirst (c : Char) : List Char → List Char
  | [] => []
  | x :: xs => if x = c then xs else x :: removeFirst c xs

/-- Numeric value of a digit string (used by the decimal-literal model). -/
def digitsToNat (l : List Char) : ℕ :=
  l.foldl (fun a c => a * 10 + (c.toNat - 48)) 0

/-- Unsigned part of a Python decimal float literal: `digits[.digits]` with at
least one digit. -/
def floatLitCore (l : List Char) : Option ℚ :=
  let ip := l.takeWhile Char.isDigit
  let r1 := l.dropWhile Char.isDigit
  match r1 with
  | [] => if ip.isEmpty then none else some ((digitsToNat ip : ℚ))
  | '.' :: fp =>
    if fp.all Char.isDigit ∧ (ip ≠ [] ∨ fp ≠ []) then
      some ((digitsToNat ip : ℚ) + (digitsToNat fp : ℚ) / (10 : ℚ) ^ fp.length)
    else none
  | _ => none

/-- Python `float(s)` on an already-stripped character list (decimal subset). -/
def floatLit : List Char → Option ℚ
  | '+' :: t => floatLitCore t
  | '-' :: t => (floatLitCore t).map Neg.neg
  | l => floatLitCore l

/-- IST = UTC+5:30, in seconds (`IST` in the source). -/
def istOffset : ℤ := 19800

/-- A Python `datetime`: wall-clock seconds since epoch plus optional UTC
offset in seconds (`none` = naive). -/
structure Dt where
  civil : ℚ
  tz : Option ℤ
deriving DecidableEq

/-- `_norm_dt` on a datetime object: naive values get `tzinfo=IST` attached
unchanged, aware values are converted (`astimezone(IST)`), preserving the
instant. -/
def istNormalize (d : Dt) : Dt :=
  match d.tz with
  | none => ⟨d.civil, some istOffset⟩
  | some off => ⟨d.civil - (off : ℚ) + (istOffset : ℚ), some istOffset⟩

/-- The instant denoted by an aware datetime (naive treated as UTC offset 0;
the source never compares naive values). -/
def dtInstant (d : Dt) : ℚ := d.civil - ((d.tz.getD 0 : ℤ) : ℚ)

/-- Lower bound of `datetime.fromtimestamp(·, tz=utc)` (0001-01-01 UTC). -/
def tsMin : ℚ := -62135596800

/-- Modelled upper bound: `fromtimestamp` itself accepts up to 253402300799
(9999-12-31), but in the top 19800 seconds the `astimezone(IST)` that follows
raises an uncaught `OverflowError`; that sliver is modelled as unparseable. -/
def tsMaxSafe : ℚ := 253402281000

/-- `datetime.fromtimestamp(q, tz=timezone.utc)`, `none` = raises. -/
def fromTsUtc (q : ℚ) : Option Dt :=
  if tsMin ≤ q ∧ q < tsMaxSafe then some ⟨q, some 0⟩ else none

/-- `datetime.fromtimestamp(q, tz=utc).astimezone(IST)`. -/
def fromTsUtcIst (q : ℚ) : Option Dt := (fromTsUtc q).map istNormalize

/-- `1e12`, the milliseconds-vs-seconds threshold of `_parse_dt`. -/
def msThreshold : ℚ := 10 ^ 12

/-- The `isinstance(value, (int, float))` branch of `_parse_dt`: divide by
1000 when the (signed) value exceeds `1e12`, then convert; range errors are
caught and yield `None`. -/
def parseNumeric (q : ℚ) : Option Dt :=
  fromTsUtcIst (if msThreshold < q then q / 1000 else q)

/-- A Python value as found in a raw record. -/
inductive PyVal where
  | vnone
  | vstr (s : String)
  | vint (n : ℤ)
  | vrat (q : ℚ)
  | vbool (b : Bool)
  | vdt (d : Dt)
deriving DecidableEq

/-- Python truthiness. -/
def pyTruthy : PyVal → Bool
  | .vnone => false
  | .vstr s => s != ""
  | .vint n => n != 0
  | .vrat q => q != 0
  | .vbool b => b
  | .vdt _ => true

/-- Python `a or b`. -/
def pyOr (a b : PyVal) : PyVal := if pyTruthy a then a else b

/-- `str(v)` as far as the origin classifier can observe it.  For floats and
datetimes the exact Python repr is irrelevant: it always contains a `.`,
`-` or `:`, so it is never a member of the classifier token sets; the
stand-ins below preserve exactly that property. -/
def pyStrOf : PyVal → String
  | .vnone => "None"
  | .vstr s => s
  | .vint n => toString n
  | .vrat q => toString q.num ++ "." ++ toString q.den
  | .vbool b => if b then "True" else "False"
  | .vdt _ => "datetime."

/-- The string payload of a value, `none` when calling a `str` method on it
would raise `AttributeError`. -/
def pyStrOpt : PyVal → Option String
  | .vstr s => some s
  | _ => none

/-- Python `float(v)`, `none` = raises `ValueError`/`TypeError`. -/
def pyFloat : PyVal → Option ℚ
  | .vnone => none
  | .vdt _ => none
  | .vbool b => some (if b then 1 else 0)
  | .vint n => some (n : ℚ)
  | .vrat q => some q
  | .vstr s => floatLit (stripChars s.data)

/-- A raw record: a dict as an association list with unique keys. -/
abbrev Record := List (String × PyVal)

/-- `record.get(key)` (default `None`). -/
def pyGet (o : Record) (k : String) : PyVal := (o.lookup k).getD .vnone

/-- Two ASCII digits. -/
def parse2 : List Char → Option (ℕ × List Char)
  | a :: b :: t =>
    if a.isDigit ∧ b.isDigit then some ((a.toNat - 48) * 10 + (b.toNat - 48), t)
    else none
  | _ => none

/-- Four ASCII digits. -/
def parse4 : List Char → Option (ℕ × List Char)
  | a :: b :: c :: d :: t =>
    if a.isDigit ∧ b.isDigit ∧ c.isDigit ∧ d.isDigit then
      some (1000 * (a.toNat - 48) + 100 * (b.toNat - 48) + 10 * (c.toNat - 48)
            + (d.toNat - 48), t)
    else none
  | _ => none

def isLeap (y : ℕ) : Bool := (y % 4 == 0 && y % 100 != 0) || y % 400 == 0

def daysInMonth (y m : ℕ) : ℕ :=
  match m with
  | 1 => 31 | 2 => if isLeap y then 29 else 28 | 3 => 31 | 4 => 30
  | 5 => 31 | 6 => 30 | 7 => 31 | 8 => 31 | 9 => 30 | 10 => 31
  | 11 => 30 | 12 => 31 | _ => 0

/-- Days from 1970-01-01 to `y-m-d` (proleptic Gregorian). -/
def daysFromCivil (y m d : ℤ) : ℤ :=
  let y2 := if m ≤ 2 then y - 1 else y
  let era := (if 0 ≤ y2 then y2 else y2 - 399) / 400
  let yoe := y2 - era * 400
  let mp := (m + 9) % 12
  let doy := (153 * mp + 2) / 5 + d - 1
  let doe := yoe * 365 + yoe / 4 - yoe / 100 + doy
  era * 146097 + doe - 719468

/-- Wall-clock seconds since epoch of `y-m-d h:mi:s`. -/
def civilSecs (y m d h mi s : ℕ) : ℚ :=
  ((daysFromCivil y m d * 86400 + (h : ℤ) * 3600 + (mi : ℤ) * 60 + (s : ℤ) : ℤ) : ℚ)

/-- `±HH:MM` offset magnitude in seconds. -/
def parseOffAbs (l : List Char) : Option ℤ :=
  match parse2 l with
  | some (h, ':' :: r) =>
    match parse2 r with
    | some (m, []) => if h ≤ 23 ∧ m ≤ 59 then some ((h * 3600 + m * 60 : ℕ) : ℤ) else none
    | _ => none
  | _ => none

/-- Optional trailing UTC offset. -/
def parseOff : List Char → Option (Option ℤ)
  | [] => some none
  | '+' :: r => (parseOffAbs r).map (fun z => some z)
  | '-' :: r => (parseOffAbs r).map (fun z => some (-z))
  | _ => none

/-- `HH:MM[:SS]`. -/
def parseTime (l : List Char) : Option (ℕ × ℕ × ℕ × List Char) :=
  match parse2 l with
  | some (h, ':' :: r1) =>
    match parse2 r1 with
    | some (mi, r2) =>
      match r2 with
      | ':' :: r3 =>
        match parse2 r3 with
        | some (s, r4) => if h ≤ 23 ∧ mi ≤ 59 ∧ s ≤ 59 then some (h, mi, s, r4) else none
        | none => none
      | _ => if h ≤ 23 ∧ mi ≤ 59 then some (h, mi, 0, r2) else none
    | none => none
  | _ => none

/-- `datetime.fromisoformat` on the modelled subset
`YYYY-MM-DD[THH:MM[:SS][±HH:MM]]`; `none` = `ValueError`. -/
def fromIso (l : List Char) : Option Dt :=
  match parse4 l with
  | some (y, '-' :: r1) =>
    match parse2 r1 with
    | some (m, '-' :: r2) =>
      match parse2 r2 with
      | some (d, rest) =>
        if 1 ≤ y ∧ 1 ≤ m ∧ m ≤ 12 ∧ 1 ≤ d ∧ d ≤ daysInMonth y m then
          match rest with
          | [] => some ⟨civilSecs y m d 0 0 0, none⟩
          | 'T' :: tr =>
            match parseTime tr with
            | some (h, mi, s, r4) =>
              match parseOff r4 with
              | some tz => some ⟨civilSecs y m d h mi s, tz⟩
              | none => none
            | none => none
          | _ => none
        else none
      | _ => none
    | _ => none
  | _ => none

/-- `s.replace("Z", "+00:00")` (all occurrences). -/
def expandZ : List Char → List Char
  | [] => []
  | 'Z' :: t => '+' :: '0' :: '0' :: ':' :: '0' :: '0' :: expandZ t
  | c :: t => c :: expandZ t

/-- `s.replace(" ", "T", 1)`. -/
def spaceToT : List Char → List Char
  | [] => []
  | ' ' :: t => 'T' :: t
  | c :: t => c :: spaceToT t

/-- The ISO branch of `_parse_dt`: normalize `Z`, maybe turn the first space
into a `T`, parse, then zone-normalize to IST. -/
def isoBranch (s : String) : Option Dt :=
  let l1 := expandZ (stripChars s.data)
  let l2 :=
    if ¬ l1.contains 'T' ∧ l1.contains ' ' ∧ ¬ l1.contains '+'
        ∧ l1.count '-' ≤ 2 then
      spaceToT l1
    else l1
  (fromIso l2).map istNormalize

/-- Python `str.isdigit` (nonempty, all digits). -/
def pyIsDigits (l : List Char) : Bool := !l.isEmpty && l.all Char.isDigit

/-- The numeric-string gate of `_parse_dt`:
`stripped.isdigit() or stripped.replace(".", "", 1).replace("-", "", 1).isdigit()`. -/
def numericGate (l : List Char) : Bool :=
  pyIsDigits l || pyIsDigits (removeFirst '-' (removeFirst '.' l))

/-- `_parse_dt`.  String path: a non-blank string passing the numeric gate is
converted with `float`; on success it is divided by 1000 when above `1e12`
and converted from a Unix timestamp — and if that conversion range-fails the
(rebound, already divided) float value falls through to the numeric branch,
which divides again when still above `1e12` (a real quirk of the source).
A failed `float` or a failed gate falls through to the ISO branch. -/
def parseDt : PyVal → Option Dt
  | .vnone => none
  | .vdt d => some (istNormalize d)
  | .vstr s =>
    let stripped := stripChars s.data
    if stripped.isEmpty then isoBranch s
    else if numericGate stripped then
      match floatLit stripped with
      | some q =>
        let q1 := if msThreshold < q then q / 1000 else q
        match fromTsUtcIst q1 with
        | some d => some d
        | none => parseNumeric q1
      | none => isoBranch s
    else isoBranch s
  | .vint n => parseNumeric (n : ℚ)
  | .vrat q => parseNumeric q
  | .vbool b => parseNumeric (if b then 1 else 0)

/-! ### Fee tier table (`tiers.py`) -/

/-- `FEE_RATES`, keyed by the integer value of the `AlphaTier` enum. -/
def ratePairs : List (ℤ × ℚ) :=
  [(0, 0.05), (1, 0.048), (2, 0.045), (3, 0.045), (4, 0.040), (5, 0.035), (6, 0.030)]

/-- `get_fee_rate(tier)`.  The first step of the source is `AlphaTier(tier)`,
which raises `ValueError` for any integer outside `[0, 6]` (modelled as
`none`); only then does `FEE_RATES.get(·, FEE_RATES[AlphaTier.NON_ALPHA])`
run, whose fallback is therefore unreachable for out-of-range input. -/
def getFeeRate (t : ℤ) : Option ℚ :=
  if 0 ≤ t ∧ t ≤ 6 then some ((ratePairs.lookup t).getD 0.05) else none

/-- The clamp `max(0, min(6, int(alpha_tier)))` of `VolumeFeesCalculator.__init__`. -/
def clampTier (t : ℤ) : ℤ := max 0 (min 6 t)

/-- `__init__`: clamp, then `AlphaTier(clamped)` (which would raise — `none` —
were the clamped value invalid); returns the stored tier value. -/
def initAlphaTier (t : ℤ) : Option ℤ :=
  if 0 ≤ clampTier t ∧ clampTier t ≤ 6 then some (clampTier t) else none

/-! ### Record classifier -/

/-- `SOURCE_KEYS`. -/
def SOURCE_KEYS : List String := ["source", "order_source", "origin"]

def apiVals : List String := ["API", "1", "TRUE"]

def manualVals : List String :=
  ["WEB", "IOS", "ANDROID", "MANUAL", "0", "FALSE"]

/-- The loop of `_is_api_sourced` over the remaining keys: skip `None`
values, return on a recognized token, keep scanning otherwise; `True` when
the keys run out. -/
def srcScan (o : Record) : List String → Bool
  | [] => true
  | k :: ks =>
    let v := pyGet o k
    if v = .vnone then srcScan o ks
    else
      let s := pyUpper (pyStrOf v)
      if s ∈ apiVals then true
      else if s ∈ manualVals then false
      else srcScan o ks

/-- `_is_api_sourced`. -/
def isApiSourced (o : Record) : Bool := srcScan o SOURCE_KEYS

/-- The `source_available` tracking condition: some `SOURCE_KEYS` entry is
present with a non-`None` value. -/
def hasSourceKey (o : Record) : Bool :=
  SOURCE_KEYS.any (fun k => pyGet o k != PyVal.vnone)

/-- `(order.get("symbol") or order.get("asset_id") or "")`. -/
def orderSymValue (o : Record) : PyVal :=
  pyOr (pyGet o "symbol") (pyOr (pyGet o "asset_id") (.vstr ""))

/-- `... .strip()`; `none` models the `AttributeError` raised when the chain
produced a truthy non-string. -/
def orderSym (o : Record) : Option String := (pyStrOpt (orderSymValue o)).map pyStrip

/-- Negation of `symbol_norm and sym.upper() != symbol_norm`. -/
def symFilterOk (symN : Option String) (sym : String) : Bool :=
  match symN with
  | none => true
  | some s => pyUpper sym == s

/-- `_order_is_filled`; `none` models the `AttributeError` on a truthy
non-string status value. -/
def orderIsFilled (o : Record) : Option Bool :=
  (pyStrOpt (pyOr (pyGet o "status") (.vstr ""))).map
    (fun s => ["FILLED", "PARTIALLY_FILLED"].contains (pyUpper s))

/-- `_order_volume_contribution`: truthiness-chained field selection, then
`float(filled) * float(price)` with `ValueError`/`TypeError` caught to `0.0`. -/
def orderVolumeContribution (o : Record) : ℚ :=
  let filled := pyOr (pyGet o "filled_quantity") (pyOr (pyGet o "filled_size") (.vstr "0"))
  let price := pyOr (pyGet o "price") (pyOr (pyGet o "order_price") (.vstr "0"))
  match pyFloat filled, pyFloat price with
  | some a, some b => a * b
  | _, _ => 0

/-! ### Aggregation over orders (`calculate` main loop) -/

/-- `if since_dt and created: if _norm_dt(created) < _norm_dt(since_dt): continue`. -/
def ltSince (sd created : Option Dt) : Bool :=
  match sd, created with
  | some s, some c => decide (dtInstant (istNormalize c) < dtInstant (istNormalize s))
  | _, _ => false

/-- `if until_dt and created: if _norm_dt(created) > _norm_dt(until_dt): continue`. -/
def gtUntil (ud created : Option Dt) : Bool :=
  match ud, created with
  | some u, some c => decide (dtInstant (istNormalize u) < dtInstant (istNormalize c))
  | _, _ => false

/-- The `continue`-chain of the order loop, up to and including the origin
filter.  `none` = an uncaught exception; `some none` = the record is skipped;
`some (some sym)` = the record reaches the source-tracking/volume code, with
its stripped symbol. -/
def orderAdmit (sd ud : Option Dt) (symN : Option String) (onlyApi : Bool)
    (o : Record) : Option (Option String) :=
  let created := parseDt (pyGet o "created_at")
  if (sd.isSome || ud.isSome) && created.isNone then some none
  else if ltSince sd created then some none
  else if gtUntil ud created then some none
  else
    match orderSym o with
    | none => none
    | some sym =>
      if !symFilterOk symN sym then some none
      else
        match orderIsFilled o with
        | none => none
        | some f =>
          if !f then some none
          else if onlyApi && !isApiSourced o then some none
          else some (some sym)

/-- The running accumulators of `calculate`. -/
structure AccState where
  total : ℚ
  bySym : List (String × ℚ)
  count : ℕ
  srcAvail : Bool
deriving DecidableEq

def initAcc : AccState := ⟨0, [], 0, false⟩

/-- `by_symbol[sym] = by_symbol.get(sym, 0.0) + vol` on an insertion-ordered
dict. -/
def updateAssoc : List (String × ℚ) → String → ℚ → List (String × ℚ)
  | [], k, v => [(k, v)]
  | (k1, v1) :: t, k, v =>
    if k1 = k then (k1, v1 + v) :: t else (k1, v1) :: updateAssoc t k v

/-- One iteration of the order loop: after the filters, the record first sets
`source_available`, and only then is its contribution tested against `<= 0`. -/
def orderStep (sd ud : Option Dt) (symN : Option String) (onlyApi : Bool)
    (st : AccState) (o : Record) : Option AccState :=
  match orderAdmit sd ud symN onlyApi o with
  | none => none
  | some none => some st
  | some (some sym) =>
    let st1 : AccState := { st with srcAvail := st.srcAvail || hasSourceKey o }
    let vol := orderVolumeContribution o
    if vol ≤ 0 then some st1
    else
      some { st1 with
        total := st1.total + vol,
        count := st1.count + 1,
        bySym := if sym = "" then st1.bySym else updateAssoc st1.bySym sym vol }

/-- A record passed every filter (reached the source-tracking code). -/
def admitPasses (sd ud : Option Dt) (symN : Option String) (onlyApi : Bool)
    (o : Record) : Bool :=
  match orderAdmit sd ud symN onlyApi o with
  | some (some _) => true
  | _ => false

/-- A record that both passes the filters and carries a source-like field. -/
def seesSource (sd ud : Option Dt) (symN : Option String) (onlyApi : Bool)
    (o : Record) : Bool :=
  admitPasses sd ud symN onlyApi o && hasSourceKey o

/-! ### Actual-fee reconciliation (`_fetch_actual_fees`) -/

/-- `fee.get("fee_amount", "0")` (attribute-shaped fee records behave
identically through the `getattr` arm and are modelled as dicts). -/
def feeAmountOf (fee : Record) : PyVal := (fee.lookup "fee_amount").getD (.vstr "0")

/-- One iteration of the fee loop: the same unparseable/time filters as the
order loop, then `total += float(amount); count += 1` with parse failures
skipping both. -/
def feeStep (sd ud : Option Dt) (acc : ℚ × ℕ) (fee : Record) : ℚ × ℕ :=
  let created := parseDt (pyGet fee "created_at")
  if (sd.isSome || ud.isSome) && created.isNone then acc
  else if ltSince sd created then acc
  else if gtUntil ud created then acc
  else
    match pyFloat (feeAmountOf fee) with
    | some a => (acc.1 + a, acc.2 + 1)
    | none => acc

/-- `_fetch_actual_fees`: a raising `get_history` is caught and degrades to
`(0.0, 0)`. -/
def fetchActualFees (feed : Except Unit (List Record)) (sd ud : Option Dt) : ℚ × ℕ :=
  match feed with
  | .error _ => (0, 0)
  | .ok fees => fees.foldl (feeStep sd ud) (0, 0)

/-! ### Paginated history fetcher (`fetch_raw_order_history`) -/

/-- An entry of a response page: a dict (kept) or anything else (dropped). -/
inductive Item where
  | dict (r : Record)
  | nondict
deriving DecidableEq

/-- The response envelope shapes the fetcher unwraps: a bare list, `{"data":
[...]}`, `{"data": {"items": [...]}}`, `{"data": {"data": [...]}}`, or
anything else (which yields no items). -/
inductive Envelope where
  | bare (items : List Item)
  | dataList (items : List Item)
  | dataItems (items : List Item)
  | dataData (items : List Item)
  | junk
deriving DecidableEq

def envItems : Envelope → List Item
  | .bare l => l
  | .dataList l => l
  | .dataItems l => l
  | .dataData l => l
  | .junk => []

def itemDict : Item → Option Record
  | .dict r => some r
  | .nondict => none

/-- Truthiness of the `limit` argument: `if limit and ...`. -/
def limTruthy : Option ℤ → Bool
  | none => false
  | some n => n != 0

/-- Python `out[:n]` for an arbitrary integer `n`. -/
def pySliceTo (n : ℤ) (l : List Record) : List Record :=
  if 0 ≤ n then l.take n.toNat else l.take (l.length - n.natAbs)

/-- The `while True` pagination loop, with explicit fuel (`none` = the loop
has not terminated within `fuel` pages). -/
def fetchLoop (client : ℕ → Envelope) (lim : Option ℤ) :
    ℕ → ℕ → List Record → Option (List Record)
  | 0, _, _ => none
  | fuel + 1, page, out =>
    let items := envItems (client page)
    if items.isEmpty then some out
    else
      let out2 := out ++ items.filterMap itemDict
      if limTruthy lim ∧ lim.getD 0 ≤ (out2.length : ℤ) then
        some (pySliceTo (lim.getD 0) out2)
      else if items.length < 100 then some out2
      else fetchLoop client lim fuel (page + 1) out2

/-- `fetch_raw_order_history(client, limit)`: pages start at 1. -/
def fetchRawOrderHistory (client : ℕ → Envelope) (lim : Option ℤ) (fuel : ℕ) :
    Option (List Record) :=
  fetchLoop client lim fuel 1 []

/-- The first `n` records of the feed, in order (pages are numbered from 1;
with at least one record per page, `n` pages always suffice). -/
def feedPrefix (pages : ℕ → List Record) (n : ℕ) : List Record :=
  ((List.range n).flatMap (fun i => pages (i + 1))).take n

/-! ### The calculator -/

/-- The report returned by `calculate`; `actual = none` means the
`actual_fees`/`actual_fee_count` keys are absent. -/
structure Report where
  total_volume : ℚ
  estimated_fees : ℚ
  fee_rate_pct : ℚ
  order_count : ℕ
  by_symbol : List (String × ℚ)
  source_available : Bool
  actual : Option (ℚ × ℕ)
deriving DecidableEq

/-- `symbol_norm = (symbol or "").strip().upper() or None`; outer `none`
models the `AttributeError` on a truthy non-string argument. -/
def symbolNorm (symbol : Option PyVal) : Option (Option String) :=
  let v := match symbol with | none => PyVal.vstr "" | some s => pyOr s (.vstr "")
  match pyStrOpt v with
  | none => none
  | some s =>
    let u := pyUpper (pyStrip s)
    some (if u = "" then none else some u)

/-- `since_dt = _parse_dt(since) if since else None` (same for `until`). -/
def boundDt : Option PyVal → Option Dt
  | none => none
  | some v => if pyTruthy v then parseDt v else none

/-- The pure heart of `calculate` after the fetch: the order loop, then the
fee-rate resolution (`get_fee_rate` on the tier stored by `__init__`) and the
report assembly.  `none` = an uncaught exception somewhere in the loop. -/
def calcCore (orders : List Record) (tier : ℤ) (onlyApi : Bool)
    (sd ud : Option Dt) (symN : Option String) : Option Report :=
  match initAlphaTier tier with
  | none => none
  | some tv =>
    match orders.foldlM (orderStep sd ud symN onlyApi) initAcc with
    | none => none
    | some st =>
      match getFeeRate tv with
      | none => none
      | some rate =>
        some { total_volume := st.total, estimated_fees := st.total * (rate / 100),
               fee_rate_pct := rate, order_count := st.count, by_symbol := st.bySym,
               source_available := st.srcAvail, actual := none }

/-- The collaborator: a paginated order-history feed and, when the client has
a `fees` attribute, a fee-history feed (whose call may raise: `Except.error`). -/
structure Client where
  pages : ℕ → Envelope
  fees : Option (Option String → Except Unit (List Record))

/-- Attach `actual_fees = 0, actual_fee_count = 0` to a report. -/
def withZeroActual (r : Report) : Report := { r with actual := some (0, 0) }

/-- `VolumeFeesCalculator(client, alpha_tier, count_only_api_sourced)
.calculate(since, until, symbol, limit, include_actual_fees)`. -/
def calculate (c : Client) (tier : ℤ) (onlyApi : Bool)
    (sinceV untilV symbol : Option PyVal) (lim : Option ℤ)
    (includeActual : Bool) (fuel : ℕ) : Option Report :=
  match fetchRawOrderHistory c.pages lim fuel with
  | none => none
  | some raw =>
    match symbolNorm symbol with
    | none => none
    | some symN =>
      match calcCore raw tier onlyApi (boundDt sinceV) (boundDt untilV) symN with
      | none => none
      | some base =>
        match includeActual, c.fees with
        | true, some ff =>
          some { base with
            actual := some (fetchActualFees (ff symN) (boundDt sinceV) (boundDt untilV)) }
        | _, _ => some base

/-! ### Definitions following the claims' wording (for comparison with the
source-derived definitions above) -/

/-- Modelled from the claim wording of C3: the value of the first of the two
fields that is PRESENT on the record, defaulting to zero. -/
def firstPresent (o : Record) (k1 k2 : String) : PyVal :=
  match o.lookup k1 with
  | some v => v
  | none =>
    match o.lookup k2 with
    | some v => v
    | none => .vint 0

/-- The notional contribution as the C3 claim states it (first PRESENT field). -/
def specContribFirstPresent (o : Record) : ℚ :=
  match pyFloat (firstPresent o "filled_quantity" "filled_size"),
        pyFloat (firstPresent o "price" "order_price") with
  | some a, some b => a * b
  | _, _ => 0

/-- First TRUTHY value among the two fields, else the string `"0"` — the
behaviour of the source's `or`-chains, for the amended C3. -/
def firstTruthy (o : Record) (k1 k2 : String) : PyVal :=
  if pyTruthy (pyGet o k1) then pyGet o k1
  else if pyTruthy (pyGet o k2) then pyGet o k2
  else .vstr "0"

/-- The notional contribution as the amended C3 states it. -/
def specContribTruthy (o : Record) : ℚ :=
  match pyFloat (firstTruthy o "filled_quantity" "filled_size"),
        pyFloat (firstTruthy o "price" "order_price") with
  | some a, some b => a * b
  | _, _ => 0

/-- A single origin value's verdict: `some true`/`some false` when the
uppercased string form is a recognized programmatic/manual token, `none` for
null or unrecognized values (for the amended C5). -/
def recognizedOriginValue (v : PyVal) : Option Bool :=
  if v = .vnone then none
  else
    let s := pyUpper (pyStrOf v)
    if s ∈ apiVals then some true
    else if s ∈ manualVals then some false
    else none

/-- Origin classification as the amended C5 states it: the first RECOGNIZED
value in priority order decides; default programmatic. -/
def specOriginScan (o : Record) : Option Bool :=
  SOURCE_KEYS.findSome? (fun k => recognizedOriginValue (pyGet o k))

/-! ### Concrete records and clients used by counterexamples and witnesses -/

/-- 2023-11-15 03:43:20 IST (Unix 1700000000), already normalized. -/
def dtEx : Dt := ⟨1700019800, some istOffset⟩

/-- A filled API-sourced order with no `created_at` and positive notional. -/
def oApiRec : Record :=
  [("symbol", .vstr "BTCUSDT"), ("status", .vstr "FILLED"), ("source", .vstr "API"),
   ("filled_quantity", .vstr "1"), ("price", .vstr "5")]

/-- A filled manual (`WEB`) order with a source field and positive notional. -/
def oWebRec : Record :=
  [("symbol", .vstr "BTCUSDT"), ("status", .vstr "FILLED"), ("source", .vstr "WEB"),
   ("filled_quantity", .vstr "1"), ("price", .vstr "5")]

/-- First origin field holds the unrecognized value `"X"`, second says `WEB`. -/
def o1SrcRec : Record := [("source", .vstr "X"), ("order_source", .vstr "WEB")]

/-- Same first origin value `"X"`, but the second field says `API`. -/
def o2SrcRec : Record := [("source", .vstr "X"), ("order_source", .vstr "API")]

/-- `filled_quantity` present and equal to numeric 0, `filled_size` nonzero. -/
def oZeroQtyRec : Record :=
  [("filled_quantity", .vint 0), ("filled_size", .vint 5), ("price", .vint 10)]

/-- A fee record with an amount but no creation timestamp. -/
def feeExRec : Record := [("fee_amount", .vstr "0.25")]

/-- One page holding only `oApiRec`; no fee feed. -/
def clientApi : Client := ⟨fun _ => .bare [.dict oApiRec], none⟩

/-- One page holding only `oWebRec`; no fee feed. -/
def clientWeb : Client := ⟨fun _ => .bare [.dict oWebRec], none⟩

/-- One page holding only `oApiRec`; a fee feed that always raises. -/
def clientFeeErr : Client :=
  ⟨fun _ => .bare [.dict oApiRec], some (fun _ => .error ())⟩

/-- The report `calculate` produces for `clientApi` with tier 0 and no filters. -/
def rApiW : Report := ⟨5, 1 / 400, 1 / 20, 1, [("BTCUSDT", 5)], true, none⟩

/-- An endless feed: every page holds 100 (empty) dict records. -/
def pagesDemo : ℕ → List Record := fun _ => List.replicate 100 []

def clientDemo : ℕ → Envelope := fun p => .bare ((pagesDemo p).map Item.dict)

/-! ## Helper lemmas -/

theorem initAlphaTier_eq (t : ℤ) : initAlphaTier t = some (clampTier t) := by
  unfold initAlphaTier
  rw [if_pos]
  exact ⟨le_max_left 0 _, max_le (by norm_num) (min_le_left 6 t)⟩

theorem orderStep_srcAvail {sd ud : Option Dt} {symN : Option String}
    {onlyApi : Bool} {st : AccState} {o : Record} {st2 : AccState}
    (h : orderStep sd ud symN onlyApi st o = some st2) :
    st2.srcAvail = (st.srcAvail || seesSource sd ud symN onlyApi o) := by
  unfold orderStep at h
  unfold seesSource admitPasses
  cases hA : orderAdmit sd ud symN onlyApi o with
  | none => rw [hA] at h; cases h
  | some osym =>
    rw [hA] at h
    cases osym with
    | none =>
      simp only [Option.some.injEq] at h
      subst h
      simp
    | some sym =>
      simp only at h
      split at h <;> simp only [Option.some.injEq] at h <;> subst h <;> simp

theorem foldlM_srcAvail (sd ud : Option Dt) (symN : Option String) (onlyApi : Bool) :
    ∀ (orders : List Record) (st0 st : AccState),
      orders.foldlM (orderStep sd ud symN onlyApi) st0 = some st →
      st.srcAvail = (st0.srcAvail || orders.any (seesSource sd ud symN onlyApi)) := by
  intro orders
  induction orders with
  | nil =>
    intro st0 st h
    simp only [List.foldlM_nil, pure, Option.some.injEq] at h
    subst h
    simp
  | cons a l ih =>
    intro st0 st h
    rw [List.foldlM_cons] at h
    cases hstep : orderStep sd ud symN onlyApi st0 a with
    | none => rw [hstep] at h; cases h
    | some st1 =>
      rw [hstep] at h
      simp only [Option.bind_eq_bind, Option.some_bind] at h
      rw [ih st1 st h, orderStep_srcAvail hstep, List.any_cons, Bool.or_assoc]

theorem calcCore_srcAvail {orders : List Record} {tier : ℤ} {onlyApi : Bool}
    {sd ud : Option Dt} {symN : Option String} {r : Report}
    (h : calcCore orders tier onlyApi sd ud symN = some r) :
    r.source_available = orders.any (seesSource sd ud symN onlyApi) := by
  unfold calcCore at h
  rw [initAlphaTier_eq] at h
  dsimp only at h
  cases hf : orders.foldlM (orderStep sd ud symN onlyApi) initAcc with
  | none => rw [hf] at h; cases h
  | some st =>
    rw [hf] at h
    dsimp only at h
    cases hr : getFeeRate (clampTier tier) with
    | none => rw [hr] at h; cases h
    | some rate =>
      rw [hr] at h
      simp only [Option.some.injEq] at h
      subst h
      have := foldlM_srcAvail sd ud symN onlyApi orders initAcc st hf
      simpa [initAcc] using this

theorem filterMap_itemDict_map (l : List Record) :
    (l.map Item.dict).filterMap itemDict = l := by
  induction l with
  | nil => rfl
  | cons a t ih => simp [itemDict, ih]

theorem flatMap_range_shift (pages : ℕ → List Record) (p n : ℕ) :
    (List.range (n + 1)).flatMap (fun i => pages (p + i))
      = pages p ++ (List.range n).flatMap (fun i => pages (p + 1 + i)) := by
  rw [List.range_succ_eq_map]
  simp only [List.flatMap_cons, Nat.add_zero]
  congr 1
  rw [List.flatMap_map]
  congr 1
  funext i
  congr 1
  omega

theorem fetchLoop_full
    (client : ℕ → Envelope) (pages : ℕ → List Record)
    (hcl : ∀ p, 1 ≤ p → client p = .bare ((pages p).map Item.dict))
    (hlen : ∀ p, 1 ≤ p → (pages p).length = 100)
    (cap : ℕ) :
    ∀ (fuel p : ℕ) (out : List Record), 1 ≤ p → out.length < cap →
      cap ≤ out.length + fuel * 100 →
      fetchLoop client (some (cap : ℤ)) fuel p out
        = some ((out ++ (List.range fuel).flatMap (fun i => pages (p + i))).take cap) := by
  intro fuel
  induction fuel with
  | zero => intro p out hp hlt hle; omega
  | succ fuel ih =>
    intro p out hp hlt hle
    rw [fetchLoop, hcl p hp]
    dsimp only [envItems]
    have hlp := hlen p hp
    have hpne : pages p ≠ [] := by
      intro h0
      rw [h0] at hlp
      simp at hlp
    rw [if_neg (by simpa [List.isEmpty_iff, List.map_eq_nil_iff] using hpne)]
    rw [filterMap_itemDict_map]
    have hlen2 : (out ++ pages p).length = out.length + 100 := by
      simp [hlp]
    by_cases hge : cap ≤ (out ++ pages p).length
    · rw [if_pos]
      · rw [flatMap_range_shift]
        rw [show out ++ (pages p ++ (List.range fuel).flatMap fun i => pages (p + 1 + i))
              = (out ++ pages p) ++ (List.range fuel).flatMap (fun i => pages (p + 1 + i))
            from (List.append_assoc _ _ _).symm]
        rw [List.take_append_of_le_length hge]
        unfold pySliceTo
        rw [if_pos (by simp)]
        simp
      · refine ⟨by simp [limTruthy]; omega, ?_⟩
        simpa using (Int.ofNat_le.mpr hge)
    · rw [if_neg]
      · rw [if_neg (by simp [hlp])]
        rw [ih (p + 1) (out ++ pages p) (by omega) (by omega) (by omega)]
        rw [flatMap_range_shift]
        simp
      · rintro ⟨_, hc⟩
        apply hge
        simpa using (Int.ofNat_le.mp (by simpa using hc))

/-! ## Claim theorems -/

/-- Claim C2 (evaluation at the failing input): `get_fee_rate` on a tier
outside `[0, 6]` does NOT return tier 0's rate — `AlphaTier(tier)` raises
`ValueError` first (modelled as `none`), making the dictionary fallback
unreachable; every in-range tier resolves its configured rate. -/
theorem c2_get_fee_rate_eval :
    getFeeRate 7 = none ∧ getFeeRate 99 = none ∧ getFeeRate (-1) = none
    ∧ getFeeRate 0 = some 0.05 ∧ getFeeRate 1 = some 0.048
    ∧ getFeeRate 2 = some 0.045 ∧ getFeeRate 3 = some 0.045
    ∧ getFeeRate 4 = some 0.040 ∧ getFeeRate 5 = some 0.035
    ∧ getFeeRate 6 = some 0.030 := by
  with_unfolding_all decide

/-- Claim C3, counterexample: on a record with `filled_quantity = 0` (present)
and `filled_size = 5`, `price = 10`, the claim's "first present field" rule
predicts a zero contribution, but the source's truthiness `or`-chain skips the
zero and yields `5 * 10 = 50`. -/
theorem c3_first_present_counterexample :
    specContribFirstPresent oZeroQtyRec = 0
    ∧ orderVolumeContribution oZeroQtyRec = 50
    ∧ pyGet oZeroQtyRec "filled_quantity" = PyVal.vint 0 := by
  with_unfolding_all decide

/-- Claim C3 (amended): the notional contribution is the first TRUTHY value
among `filled_quantity`, `filled_size` (falling back to the string `"0"`)
times the first TRUTHY value among `price`, `order_price`; a present but
falsy value (numeric 0, empty string, `None`) is passed over. -/
theorem c3_truthy_field_selection (o : Record) :
    orderVolumeContribution o = specContribTruthy o := by
  unfold orderVolumeContribution specContribTruthy firstTruthy pyOr
  by_cases h1 : pyTruthy (pyGet o "filled_quantity") <;>
    by_cases h2 : pyTruthy (pyGet o "filled_size") <;>
      by_cases h3 : pyTruthy (pyGet o "price") <;>
        by_cases h4 : pyTruthy (pyGet o "order_price") <;>
          simp [h1, h2, h3, h4]

/-- Witness for the amended C3 at a concrete record: the zero-quantity record
contributes `50`, exactly as the truthy-selection rule predicts. -/
theorem c3_truthy_field_selection_witness :
    orderVolumeContribution oZeroQtyRec = specContribTruthy oZeroQtyRec
    ∧ specContribTruthy oZeroQtyRec = 50 :=
  ⟨c3_truthy_field_selection oZeroQtyRec, by with_unfolding_all decide⟩

/-- Claim C5, counterexample: two records share the same first present,
non-null origin value (`"X"`, recognized by neither token set) yet are
classified differently because the scan moves on to `order_source` — so the
classification is NOT a function of the first present non-null value alone. -/
theorem c5_first_value_counterexample :
    isApiSourced o1SrcRec = false ∧ isApiSourced o2SrcRec = true
    ∧ pyGet o1SrcRec "source" = pyGet o2SrcRec "source"
    ∧ pyGet o1SrcRec "source" ≠ PyVal.vnone := by
  decide

/-- Claim C5 (amended): the origin scan skips null AND unrecognized values;
the first RECOGNIZED value in the priority order `source`, `order_source`,
`origin` decides (`API`/`1`/`TRUE` → programmatic, `WEB`/`IOS`/`ANDROID`/
`MANUAL`/`0`/`FALSE` → manual); when no field decides, the record is
classified programmatic. -/
theorem c5_origin_scan (o : Record) :
    isApiSourced o = (specOriginScan o).getD true := by
  unfold isApiSourced specOriginScan
  generalize SOURCE_KEYS = ks
  induction ks with
  | nil => rfl
  | cons k ks ih =>
    rw [List.findSome?_cons]
    have hsrc : srcScan o (k :: ks)
        = (if pyGet o k = PyVal.vnone then srcScan o ks
           else if pyUpper (pyStrOf (pyGet o k)) ∈ apiVals then true
           else if pyUpper (pyStrOf (pyGet o k)) ∈ manualVals then false
           else srcScan o ks) := rfl
    have hrec : recognizedOriginValue (pyGet o k)
        = (if pyGet o k = PyVal.vnone then none
           else if pyUpper (pyStrOf (pyGet o k)) ∈ apiVals then some true
           else if pyUpper (pyStrOf (pyGet o k)) ∈ manualVals then some false
           else none) := rfl
    rw [hsrc, hrec]
    by_cases h0 : pyGet o k = PyVal.vnone
    · simp [h0, ih]
    · rw [if_neg h0, if_neg h0]
      by_cases h1 : pyUpper (pyStrOf (pyGet o k)) ∈ apiVals
      · simp [h1]
      · rw [if_neg h1, if_neg h1]
        by_cases h2 : pyUpper (pyStrOf (pyGet o k)) ∈ manualVals
        · simp [h2]
        · simp [h1, h2, ih]

/-- Claim C8, counterexample: `-2·10^12` has magnitude above `10^12`, so the
claim predicts division by 1000 and a valid instant (`-2·10^9` seconds is
year 1906) — but the source's comparison is signed (`value > 1e12`), the
value is not divided, and normalization fails. -/
theorem c8_magnitude_counterexample :
    parseDt (.vint (-2000000000000)) = none
    ∧ fromTsUtcIst ((-2000000000000 : ℚ) / 1000) = some ⟨-1999980200, some 19800⟩ := by
  constructor
  · show parseNumeric ((-2000000000000 : ℤ) : ℚ) = none
    norm_num [parseNumeric, fromTsUtcIst, fromTsUtc, msThreshold, tsMin, tsMaxSafe]
  · norm_num [fromTsUtcIst, fromTsUtc, tsMin, tsMaxSafe, istNormalize, istOffset]

/-- Claim C8 (amended): the milliseconds heuristic triggers on the SIGNED
comparison `value > 1e12`, not on the magnitude: values above `10^12` are
divided by 1000 and read as Unix seconds in UTC then converted to IST;
values `≤ 10^12` (including arbitrarily negative ones) are read directly;
`normalize(1700000000) = normalize(1700000000000)` holds. -/
theorem c8_numeric_threshold :
    (∀ q : ℚ, msThreshold < q → parseDt (.vrat q) = fromTsUtcIst (q / 1000))
    ∧ (∀ q : ℚ, q ≤ msThreshold → parseDt (.vrat q) = fromTsUtcIst q)
    ∧ parseDt (.vint 1700000000) = parseDt (.vint 1700000000000)
    ∧ parseDt (.vint 1700000000) = some ⟨1700019800, some 19800⟩ := by
  refine ⟨fun q h => ?_, fun q h => ?_, ?_, ?_⟩
  · simp [parseDt, parseNumeric, if_pos h]
  · simp [parseDt, parseNumeric, if_neg (not_lt.mpr h)]
  · show parseNumeric ((1700000000 : ℤ) : ℚ) = parseNumeric ((1700000000000 : ℤ) : ℚ)
    norm_num [parseNumeric, fromTsUtcIst, fromTsUtc, msThreshold, tsMin, tsMaxSafe,
      istNormalize, istOffset]
  · show parseNumeric ((1700000000 : ℤ) : ℚ) = some ⟨1700019800, some 19800⟩
    norm_num [parseNumeric, fromTsUtcIst, fromTsUtc, msThreshold, tsMin, tsMaxSafe,
      istNormalize, istOffset]

/-- Witness for the amended C8: both halves applied at concrete inputs on
each side of the threshold. -/
theorem c8_numeric_threshold_witness :
    parseDt (.vrat 1700000000000) = fromTsUtcIst ((1700000000000 : ℚ) / 1000)
    ∧ parseDt (.vrat 1700000000) = fromTsUtcIst (1700000000 : ℚ) :=
  ⟨c8_numeric_threshold.1 1700000000000 (by norm_num [msThreshold]),
   c8_numeric_threshold.2.1 1700000000 (by norm_num [msThreshold])⟩

/-- Claim C9: the constructor clamps any integer `alpha_tier` into `[0, 6]`
(so the subsequent `AlphaTier(·)` conversion always succeeds — no error is
raised), a tier above 6 resolves exactly tier 6's state and fee rate, and a
negative tier resolves tier 0's rate (0.05%). -/
theorem c9_tier_clamping (t : ℤ) :
    initAlphaTier t = some (clampTier t)
    ∧ (6 < t → clampTier t = 6 ∧ getFeeRate (clampTier t) = getFeeRate 6)
    ∧ (t < 0 → clampTier t = 0 ∧ getFeeRate (clampTier t) = some 0.05) := by
  refine ⟨initAlphaTier_eq t, fun h => ?_, fun h => ?_⟩
  · have hc : clampTier t = 6 := by
      unfold clampTier
      omega
    exact ⟨hc, by rw [hc]⟩
  · have hc : clampTier t = 0 := by
      unfold clampTier
      omega
    exact ⟨hc, by rw [hc]; with_unfolding_all decide⟩

/-- Witness for C9 at tier 99: construction succeeds with the clamped tier 6
and resolves tier 6's rate. -/
theorem c9_tier_clamping_witness :
    initAlphaTier 99 = some (clampTier 99)
    ∧ clampTier 99 = 6 ∧ getFeeRate (clampTier 99) = getFeeRate 6 :=
  ⟨(c9_tier_clamping 99).1, (c9_tier_clamping 99).2.1 (by decide)⟩

/-- Claim C1: a record whose `created_at` normalizes to `None` is skipped by
the order loop (and contributes nothing) whenever at least one normalized
time bound is present, and is admitted — subject to the symbol, fill-status
and origin filters, which the hypotheses say it passes — when both bounds
are absent; `_fetch_actual_fees` applies the identical policy to fee
records.  The first conjunct records that a bound supplied as a `datetime`
always normalizes to a present bound. -/
theorem c1_unparseable_time_policy
    (o fee : Record) (d1 : Dt) (sd ud : Option Dt) (symN : Option String)
    (onlyApi : Bool) (sym : String) (amt : ℚ) (acc : ℚ × ℕ) (st : AccState)
    (hcre : parseDt (pyGet o "created_at") = none)
    (hfcre : parseDt (pyGet fee "created_at") = none)
    (hsym : orderSym o = some sym) (hsf : symFilterOk symN sym = true)
    (hfill : orderIsFilled o = some true)
    (hapi : onlyApi = true → isApiSourced o = true)
    (hamt : pyFloat (feeAmountOf fee) = some amt) :
    (boundDt (some (.vdt d1))).isSome = true
    ∧ ((sd.isSome ∨ ud.isSome) →
        orderAdmit sd ud symN onlyApi o = some none
        ∧ orderStep sd ud symN onlyApi st o = some st
        ∧ feeStep sd ud acc fee = acc)
    ∧ (orderAdmit none none symN onlyApi o = some (some sym)
        ∧ feeStep none none acc fee = (acc.1 + amt, acc.2 + 1)) := by
  refine ⟨by simp [boundDt, pyTruthy, parseDt], fun h => ?_, ?_⟩
  · have hbool : (sd.isSome || ud.isSome) = true := by
      rcases h with h | h <;> simp [h]
    have hAdm : orderAdmit sd ud symN onlyApi o = some none := by
      simp [orderAdmit, hcre, hbool]
    refine ⟨hAdm, by simp [orderStep, hAdm], by simp [feeStep, hfcre, hbool]⟩
  · constructor
    · cases onlyApi with
      | false => simp [orderAdmit, hcre, hsym, hsf, hfill, ltSince, gtUntil]
      | true => simp [orderAdmit, hcre, hsym, hsf, hfill, hapi rfl, ltSince, gtUntil]
    · simp [feeStep, hfcre, hamt, ltSince, gtUntil]

/-- Witness for C1: with the bound `since = 2023-11-15 03:43:20 IST` present,
the timestamp-less order and fee records are skipped; with no bounds they are
counted. -/
theorem c1_unparseable_time_policy_witness :
    orderAdmit (some dtEx) none none true oApiRec = some none
    ∧ orderStep (some dtEx) none none true initAcc oApiRec = some initAcc
    ∧ feeStep (some dtEx) none (0, 0) feeExRec = (0, 0)
    ∧ orderAdmit none none none true oApiRec = some (some "BTCUSDT")
    ∧ feeStep none none (0, 0) feeExRec = ((0, 0).1 + 1 / 4, (0, 0).2 + 1) := by
  obtain ⟨h1, h2, h3⟩ :=
    c1_unparseable_time_policy oApiRec feeExRec dtEx (some dtEx) none none true
      "BTCUSDT" (1 / 4) (0, 0) initAcc (by decide) (by decide) (by decide) (by decide)
      (by decide) (fun _ => by decide) (by with_unfolding_all decide)
  exact ⟨(h2 (Or.inl rfl)).1, (h2 (Or.inl rfl)).2.1, (h2 (Or.inl rfl)).2.2, h3.1, h3.2⟩

/-- Claim C10: a supplied `since` value that is truthy but fails to
normalize is silently treated as an absent bound — `calculate` behaves
exactly as with `since=None` — and a record with an unparseable timestamp
(passing the other filters, with positive notional) is then included in the
totals even though the caller supplied a time bound. -/
theorem c10_unparseable_bound_ignored
    (v : PyVal) (o : Record) (symN : Option String) (onlyApi : Bool) (sym : String)
    (st : AccState)
    (hT : pyTruthy v = true) (hP : parseDt v = none)
    (hcre : parseDt (pyGet o "created_at") = none)
    (hsym : orderSym o = some sym) (hsf : symFilterOk symN sym = true)
    (hfill : orderIsFilled o = some true)
    (hapi : onlyApi = true → isApiSourced o = true)
    (hvol : 0 < orderVolumeContribution o) :
    boundDt (some v) = none
    ∧ (∀ (c : Client) (tier : ℤ) (symbol : Option PyVal) (lim : Option ℤ)
        (ia : Bool) (fuel : ℕ),
        calculate c tier onlyApi (some v) none symbol lim ia fuel
          = calculate c tier onlyApi none none symbol lim ia fuel)
    ∧ orderAdmit (boundDt (some v)) none symN onlyApi o = some (some sym)
    ∧ (orderStep (boundDt (some v)) none symN onlyApi st o).map AccState.count
        = some (st.count + 1) := by
  have hb : boundDt (some v) = none := by simp [boundDt, hT, hP]
  have hAdm : orderAdmit (boundDt (some v)) none symN onlyApi o = some (some sym) := by
    rw [hb]
    cases onlyApi with
    | false => simp [orderAdmit, hcre, hsym, hsf, hfill, ltSince, gtUntil]
    | true => simp [orderAdmit, hcre, hsym, hsf, hfill, hapi rfl, ltSince, gtUntil]
  refine ⟨hb, fun c tier symbol lim ia fuel => ?_, hAdm, ?_⟩
  · simp only [calculate, hb, show boundDt none = none from rfl]
  · simp [orderStep, hAdm, if_neg (not_le.mpr hvol)]

/-- Witness for C10: `since="garbage"` is truthy yet unparseable; the
calculator behaves as if no bound were supplied and the timestamp-less order
record is counted. -/
theorem c10_unparseable_bound_ignored_witness :
    boundDt (some (PyVal.vstr "garbage")) = none
    ∧ calculate clientApi 0 true (some (PyVal.vstr "garbage")) none none none false 1
        = calculate clientApi 0 true none none none none false 1
    ∧ orderAdmit (boundDt (some (PyVal.vstr "garbage"))) none none true oApiRec
        = some (some "BTCUSDT")
    ∧ (orderStep (boundDt (some (PyVal.vstr "garbage"))) none none true initAcc
        oApiRec).map AccState.count = some (initAcc.count + 1) := by
  obtain ⟨h1, h2, h3, h4⟩ :=
    c10_unparseable_bound_ignored (PyVal.vstr "garbage") oApiRec none true "BTCUSDT"
      initAcc (by decide) (by decide) (by decide) (by decide) (by decide) (by decide)
      (fun _ => by decide) (by with_unfolding_all decide)
  exact ⟨h1, h2 clientApi 0 none none false 1, h3, h4⟩

/-- Claim C4, counterexample: the only record in the pull carries a non-null
`source` field (`"WEB"`), yet the returned report has
`source_available = false`, because the tracking code sits after the origin
filter that skips manual records — so the flag is NOT an "anywhere in the
unfiltered pull" property. -/
theorem c4_unfiltered_pull_counterexample :
    (calculate clientWeb 0 true none none none none false 1).map Report.source_available
      = some false
    ∧ hasSourceKey oWebRec = true := by
  with_unfolding_all decide

/-- Claim C4 (amended): `source_available` is true iff some fetched record
both passes the time-window, symbol, fill-status and origin filters AND
carries a non-null value under `source`/`order_source`/`origin` (a passing
record with non-positive notional still counts; any record skipped by a
filter never does). -/
theorem c4_source_available_iff
    (c : Client) (tier : ℤ) (onlyApi : Bool) (sinceV untilV symbol : Option PyVal)
    (lim : Option ℤ) (ia : Bool) (fuel : ℕ) (raw : List Record)
    (symN : Option String) (r : Report)
    (hfetch : fetchRawOrderHistory c.pages lim fuel = some raw)
    (hsymN : symbolNorm symbol = some symN)
    (hcalc : calculate c tier onlyApi sinceV untilV symbol lim ia fuel = some r) :
    r.source_available
      = raw.any (seesSource (boundDt sinceV) (boundDt untilV) symN onlyApi) := by
  unfold calculate at hcalc
  rw [hfetch, hsymN] at hcalc
  dsimp only at hcalc
  cases hc : calcCore raw tier onlyApi (boundDt sinceV) (boundDt untilV) symN with
  | none => rw [hc] at hcalc; cases hcalc
  | some base =>
    rw [hc] at hcalc
    have hb := calcCore_srcAvail hc
    cases ia <;> cases hff : c.fees <;> rw [hff] at hcalc <;> dsimp only at hcalc <;>
      cases hcalc <;> simpa using hb

/-- Witness for the amended C4: the single API-sourced passing record makes
the flag true, matching the filtered-`any` characterization. -/
theorem c4_source_available_iff_witness :
    rApiW.source_available = [oApiRec].any (seesSource none none none true) :=
  c4_source_available_iff clientApi 0 true none none none none false 1 [oApiRec]
    none rApiW (by with_unfolding_all decide) (by decide)
    (by with_unfolding_all decide)

/-- Claim C6: when the fee feed raises, `calculate(..., include_actual_fees
= True)` returns exactly the report of the volume-only run with
`actual_fees = 0` and `actual_fee_count = 0` attached — the failure never
propagates and every other field is computed normally. -/
theorem c6_fee_feed_failure_isolated
    (c : Client) (ff : Option String → Except Unit (List Record))
    (tier : ℤ) (onlyApi : Bool) (sinceV untilV symbol : Option PyVal)
    (lim : Option ℤ) (fuel : ℕ)
    (hf : c.fees = some ff) (hraise : ∀ s, ff s = .error ()) :
    calculate c tier onlyApi sinceV untilV symbol lim true fuel
      = (calculate c tier onlyApi sinceV untilV symbol lim false fuel).map
          withZeroActual := by
  unfold calculate
  cases hfetch : fetchRawOrderHistory c.pages lim fuel with
  | none => rfl
  | some raw =>
    dsimp only
    cases hsym : symbolNorm symbol with
    | none => rfl
    | some symN =>
      dsimp only
      cases hcore : calcCore raw tier onlyApi (boundDt sinceV) (boundDt untilV) symN with
      | none => rfl
      | some base =>
        dsimp only
        rw [hf]
        dsimp only
        rw [hraise symN]
        rfl

/-- Witness for C6 with a concrete always-raising fee feed. -/
theorem c6_fee_feed_failure_isolated_witness :
    calculate clientFeeErr 0 true none none none none true 1
      = (calculate clientFeeErr 0 true none none none none false 1).map withZeroActual :=
  c6_fee_feed_failure_isolated clientFeeErr (fun _ => .error ()) 0 true none none
    none none 1 rfl (fun _ => rfl)

/-- Claim C7: against a History Source that forever returns pages of exactly
100 dict records, `fetch_raw_order_history` with a (positive) record cap
terminates — fuel of `cap` loop iterations suffices — and returns exactly
the first `cap` records of the feed in order.  (A cap of 0 is falsy in the
source's `if limit` test and means "no cap".) -/
theorem c7_pagination_cap
    (client : ℕ → Envelope) (pages : ℕ → List Record) (cap fuel : ℕ)
    (hcl : ∀ p, 1 ≤ p → client p = .bare ((pages p).map Item.dict))
    (hlen : ∀ p, 1 ≤ p → (pages p).length = 100)
    (hcap : 0 < cap) (hfuel : cap ≤ fuel) :
    fetchRawOrderHistory client (some (cap : ℤ)) fuel = some (feedPrefix pages cap)
    ∧ (feedPrefix pages cap).length = cap := by
  have hfun : (fun i => pages (1 + i)) = (fun i => pages (i + 1)) := by
    funext i
    rw [Nat.add_comm]
  have hlenflat : ∀ m, ((List.range m).flatMap (fun i => pages (i + 1))).length
      = m * 100 := by
    intro m
    induction m with
    | zero => simp
    | succ m ih =>
      rw [List.range_succ, List.flatMap_append, List.length_append, ih]
      simp [hlen (m + 1) (by omega)]
      ring
  have hmain := fetchLoop_full client pages hcl hlen cap fuel 1 []
    (le_refl 1) (by simpa using hcap)
    (by simp only [List.length_nil, Nat.zero_add]; omega)
  rw [hfun] at hmain
  constructor
  · rw [fetchRawOrderHistory, hmain]
    congr 1
    simp only [List.nil_append]
    rw [show fuel = cap + (fuel - cap) from by omega, List.range_add,
      List.flatMap_append, List.take_append_of_le_length (by rw [hlenflat]; omega)]
    rfl
  · rw [feedPrefix, List.length_take, hlenflat cap]
    omega

/-- Witness for C7: an endless 100-per-page feed with cap 250 yields exactly
the first 250 records. -/
theorem c7_pagination_cap_witness :
    fetchRawOrderHistory clientDemo (some (250 : ℤ)) 250 = some (feedPrefix pagesDemo 250)
    ∧ (feedPrefix pagesDemo 250).length = 250 :=
  c7_pagination_cap clientDemo pagesDemo 250 250 (fun p hp => rfl)
    (fun p hp => by simp [pagesDemo]) (by decide) (by decide)

end Mudrex
